import Mathlib

set_option maxRecDepth 4000

/-!
Verification of `src/migrateToken.js` (Hedera NFT mainnet-to-testnet migration
script) against its natural-language specification.

The script is a linear orchestration: parse a comma-separated token list from
`process.argv[2]`, look each token up on the mirror node, create an equivalent
token on testnet, page through the source NFT inventory, reverse it, mint in
batches of 10 and replay deletions with burn transactions.  We embed the
data transformations of that pipeline shallowly: network calls become oracles
(`String → Option …`), the paginated fetch becomes a step function on an
explicit state, and the mint/burn loop becomes a function producing a trace of
write actions.
-/

namespace MigrateToken

/-! ## Base64 decoding

`Buffer.from(s, 'base64')` (line 136 of the source).  Node's decoder maps the
64 alphabet characters to 6-bit values, ignores `=` padding and any character
outside the alphabet, and packs groups of four 6-bit values into three bytes
(a trailing group of two or three values yields one or two bytes). -/

/-- 6-bit value of a base64 alphabet character, `none` for padding and
any non-alphabet character (both are skipped by Node's decoder). -/
def b64Val (c : Char) : Option Nat :=
  if 'A' ≤ c ∧ c ≤ 'Z' then some (c.toNat - 'A'.toNat)
  else if 'a' ≤ c ∧ c ≤ 'z' then some (c.toNat - 'a'.toNat + 26)
  else if '0' ≤ c ∧ c ≤ '9' then some (c.toNat - '0'.toNat + 52)
  else if c = '+' then some 62
  else if c = '/' then some 63
  else none

/-- Pack a stream of 6-bit values into bytes, four values to three bytes;
a final group of two (resp. three) values contributes one (resp. two) bytes. -/
def b64Pack : List Nat → List Nat
  | a :: b :: c :: d :: rest =>
      (a * 4 + b / 16) :: ((b % 16) * 16 + c / 4) :: ((c % 4) * 64 + d) :: b64Pack rest
  | [a, b, c] => [a * 4 + b / 16, (b % 16) * 16 + c / 4]
  | [a, b] => [a * 4 + b / 16]
  | _ => []

/-- `Buffer.from(s, 'base64')` as a list of byte values. -/
def b64Decode (s : String) : List Nat :=
  b64Pack (s.data.filterMap b64Val)

/-! ## UTF-8

Line 136 converts the decoded bytes to a JavaScript string with
`.toString('utf-8')` — a *lossy* WHATWG UTF-8 decode that substitutes U+FFFD
for invalid byte sequences — and line 163 converts that string back to bytes
with `Buffer.from(string)`, a UTF-8 encode.  We represent a JavaScript string
by its list of Unicode code points (a decode never produces lone surrogates,
so scalar values suffice). -/

/-- A Unicode scalar value: in range and not a surrogate. -/
def ValidScalar (c : Nat) : Prop :=
  c < 0x110000 ∧ ¬(0xD800 ≤ c ∧ c ≤ 0xDFFF)

instance (c : Nat) : Decidable (ValidScalar c) := by
  unfold ValidScalar; infer_instance

/-- UTF-8 encoding of one code point (`Buffer.from(string)` applied to one
character). -/
def utf8EncodeChar (c : Nat) : List Nat :=
  if c < 0x80 then [c]
  else if c < 0x800 then [0xC0 + c / 64, 0x80 + c % 64]
  else if c < 0x10000 then
    [0xE0 + c / 4096, 0x80 + c / 64 % 64, 0x80 + c % 64]
  else
    [0xF0 + c / 262144, 0x80 + c / 4096 % 64, 0x80 + c / 64 % 64, 0x80 + c % 64]

/-- UTF-8 encoding of a string of code points: `Buffer.from(str)`, line 163. -/
def utf8Encode (cs : List Nat) : List Nat :=
  (cs.map utf8EncodeChar).flatten

/-- Lossy UTF-8 decoding of a byte list to code points, following the WHATWG
decoder used by `buffer.toString('utf-8')` (line 136): each maximal invalid
subpart is replaced by one U+FFFD, and after an invalid continuation byte
decoding resumes at that byte. -/
def utf8Decode : List Nat → List Nat
  | [] => []
  | b :: bs =>
    if b < 0x80 then b :: utf8Decode bs
    else if b < 0xC2 then 0xFFFD :: utf8Decode bs
    else if b ≤ 0xDF then
      match bs with
      | [] => [0xFFFD]
      | b1 :: bs1 =>
        if 0x80 ≤ b1 ∧ b1 ≤ 0xBF then
          ((b - 0xC0) * 64 + (b1 - 0x80)) :: utf8Decode bs1
        else 0xFFFD :: utf8Decode (b1 :: bs1)
    else if b ≤ 0xEF then
      match bs with
      | [] => [0xFFFD]
      | b1 :: bs1 =>
        if (if b = 0xE0 then 0xA0 ≤ b1 ∧ b1 ≤ 0xBF
            else if b = 0xED then 0x80 ≤ b1 ∧ b1 ≤ 0x9F
            else 0x80 ≤ b1 ∧ b1 ≤ 0xBF) then
          match bs1 with
          | [] => [0xFFFD]
          | b2 :: bs2 =>
            if 0x80 ≤ b2 ∧ b2 ≤ 0xBF then
              ((b - 0xE0) * 4096 + (b1 - 0x80) * 64 + (b2 - 0x80)) :: utf8Decode bs2
            else 0xFFFD :: utf8Decode (b2 :: bs2)
        else 0xFFFD :: utf8Decode (b1 :: bs1)
    else if b ≤ 0xF4 then
      match bs with
      | [] => [0xFFFD]
      | b1 :: bs1 =>
        if (if b = 0xF0 then 0x90 ≤ b1 ∧ b1 ≤ 0xBF
            else if b = 0xF4 then 0x80 ≤ b1 ∧ b1 ≤ 0x8F
            else 0x80 ≤ b1 ∧ b1 ≤ 0xBF) then
          match bs1 with
          | [] => [0xFFFD]
          | b2 :: bs2 =>
            if 0x80 ≤ b2 ∧ b2 ≤ 0xBF then
              match bs2 with
              | [] => [0xFFFD]
              | b3 :: bs3 =>
                if 0x80 ≤ b3 ∧ b3 ≤ 0xBF then
                  ((b - 0xF0) * 262144 + (b1 - 0x80) * 4096 + (b2 - 0x80) * 64 +
                      (b3 - 0x80)) :: utf8Decode bs3
                else 0xFFFD :: utf8Decode (b3 :: bs3)
            else 0xFFFD :: utf8Decode (b2 :: bs2)
        else 0xFFFD :: utf8Decode (b1 :: bs1)
    else 0xFFFD :: utf8Decode bs

/-- The metadata transformation the script performs end to end: base64 text
from the mirror node → bytes → JavaScript string (line 136), later re-encoded
to the raw bytes attached to the mint transaction (line 163). -/
def mintPayloadOfMetadata (m : String) : List Nat :=
  utf8Encode (utf8Decode (b64Decode m))

/-! ## Inventory fetch (lines 123–153)

One NFT record of a mirror-node page, and the paginated fetch loop.  The
`do … while (route != null)` loop body is embedded as a step function on the
state `(route, serials, metadata, deleteIds)`: `pages` is the transport
oracle, returning `none` when `axios.get` rejects.  In that case the `.catch`
handler only logs, so the body leaves the whole state — in particular
`route` — unchanged (lines 141‑144). -/

/-- One entry of `jsonResponse.nfts`. -/
structure SourceNft where
  serial_number : Int
  metadata : String
  deleted : Bool
deriving DecidableEq, Repr

/-- One mirror-node response page: the NFT list and the `links.next`
continuation route (`none` when pagination is finished). -/
structure Page where
  nfts : List SourceNft
  next : Option String
deriving DecidableEq, Repr

/-- The loop state of lines 123–146: the current route and the three parallel
accumulator arrays.  A JavaScript string is represented by its code points. -/
structure FetchState where
  route : Option String
  serials : List Int
  metadata : List (List Nat)
  deleteIds : List Bool
deriving DecidableEq, Repr

/-- The decoded JavaScript string pushed for one NFT (line 136). -/
def decodedMetadata (n : SourceNft) : List Nat :=
  utf8Decode (b64Decode n.metadata)

/-- One iteration of the `do`/`while` body (lines 128–146).  On a successful
fetch it appends the page's serials, decoded metadata and deletion flags and
replaces `route` by `links.next`; on a rejected fetch the `.catch` only logs,
so nothing in the state changes.  When `route` is already `null` the loop has
exited and the state is final. -/
def fetchStep (pages : String → Option Page) (st : FetchState) : FetchState :=
  match st.route with
  | none => st
  | some r =>
    match pages r with
    | none => st
    | some page =>
      { route := page.next
        serials := st.serials ++ page.nfts.map (fun n => n.serial_number)
        metadata := st.metadata ++ page.nfts.map decodedMetadata
        deleteIds := st.deleteIds ++ page.nfts.map (fun n => n.deleted) }

/-- The initial loop state for a token (lines 123–127). -/
def initFetchState (token : String) : FetchState :=
  { route := some ("/api/v1/tokens/" ++ token ++ "/nfts?limit=100")
    serials := [], metadata := [], deleteIds := [] }

/-- Lines 151–153: the three arrays are reversed in lockstep. -/
def reverseAll (st : FetchState) : FetchState :=
  { st with
    serials := st.serials.reverse
    metadata := st.metadata.reverse
    deleteIds := st.deleteIds.reverse }

/-- The three parallel arrays are projections of one record list: equal
lengths and, at every index, entries of the same source NFT. -/
def Aligned (st : FetchState) : Prop :=
  ∃ recs : List SourceNft,
    st.serials = recs.map (fun n => n.serial_number) ∧
    st.metadata = recs.map decodedMetadata ∧
    st.deleteIds = recs.map (fun n => n.deleted)

/-! ## Mint/burn batching (lines 156–203)

The minting loop is embedded as a function from the three (already reversed)
arrays to a trace of write transactions submitted to the testnet. -/

/-- `const batchSize = 10;` (line 156). -/
def batchSize : Nat := 10

/-- A write transaction submitted to the target network: the mint
transaction's metadata payloads (raw bytes each), or the burn transaction's
serial list. -/
inductive Action where
  | mint (payloads : List (List Nat))
  | burn (serials : List Int)
deriving DecidableEq, Repr

/-- Line 184: `serialSlice.filter((serial, index) => deleteSlice[index])`.
An out-of-range index reads `undefined`, which is falsy, hence the `getD`
default `false`. -/
def filterByFlags (serialSlice : List Int) (deleteSlice : List Bool) : List Int :=
  ((serialSlice.enum.filter fun p => deleteSlice.getD p.1 false).map fun p => p.2)

/-- The two transactions submitted for the batch starting at index `i`
(lines 159–202): one mint carrying `Buffer.from(metadata[j])` for
`j ∈ [i, min (i+10) serials.length)`, then, when the filtered serial slice is
non-empty, one burn of those serials.  The metadata slice is written with
`drop`/`take`; it reads the same entries as the `j` loop whenever
`metadata.length = serials.length` (the `Aligned` invariant; on shorter
`metadata` the original code would instead throw on `Buffer.from(undefined)`). -/
def batchActions (serials : List Int) (metadata : List (List Nat))
    (deleteIds : List Bool) (i : Nat) : List Action :=
  let payloads := ((metadata.drop i).take batchSize).map utf8Encode
  let deleteSlice := (deleteIds.drop i).take batchSize
  let serialSlice := (serials.drop i).take batchSize
  let toDelete := filterByFlags serialSlice deleteSlice
  Action.mint payloads :: (if toDelete = [] then [] else [Action.burn toDelete])

/-- The `for (let i = 0; i < serials.length; i += batchSize)` loop of
line 158, from index `i` on. -/
def mintLoopAux (serials : List Int) (metadata : List (List Nat))
    (deleteIds : List Bool) (i : Nat) : List Action :=
  if i < serials.length then
    batchActions serials metadata deleteIds i ++
      mintLoopAux serials metadata deleteIds (i + batchSize)
  else []
termination_by serials.length - i
decreasing_by simp [batchSize]; omega

/-- The whole minting loop of lines 156–203 as a transaction trace. -/
def mintLoop (serials : List Int) (metadata : List (List Nat))
    (deleteIds : List Bool) : List Action :=
  mintLoopAux serials metadata deleteIds 0

/-- The mint transactions of a trace, each as its payload list. -/
def mintsOf (tr : List Action) : List (List (List Nat)) :=
  tr.filterMap fun a => match a with | .mint p => some p | .burn _ => none

/-- The burn transactions of a trace, each as its serial list. -/
def burnsOf (tr : List Action) : List (List Int) :=
  tr.filterMap fun a => match a with | .mint _ => none | .burn s => some s

/-! ## The spec's burn rule (spec §4.4, §8)

For comparison with the code's burn rule, the burn sets the specification
describes: the *newly minted* serials of each batch at the positions whose
deletion flag was true. -/

/-- Modelled from the spec (§4.4): the serials the target network assigns to
a mint of `k` NFTs submitted after `i` NFTs have already been minted — the
target token starts at zero supply and serials are assigned sequentially in
submission order, so they are `i+1, …, i+k`. -/
def newSerialsFrom (i k : Nat) : List Int :=
  (List.range' (i + 1) k).map Int.ofNat

/-- Modelled from the spec (§8, "Burn set per batch"): per batch, the newly
assigned serials of that batch at the positions whose original deletion flag
was true, for an inventory of `len` records. -/
def specBurnsAux (len : Nat) (deleteIds : List Bool) (i : Nat) : List (List Int) :=
  if i < len then
    (if filterByFlags (newSerialsFrom i (min batchSize (len - i)))
          ((deleteIds.drop i).take batchSize) = []
      then []
      else [filterByFlags (newSerialsFrom i (min batchSize (len - i)))
          ((deleteIds.drop i).take batchSize)]) ++
      specBurnsAux len deleteIds (i + batchSize)
  else []
termination_by len - i
decreasing_by simp [batchSize]; omega

/-- The burn sets the spec prescribes across the whole minting loop. -/
def specBurns (len : Nat) (deleteIds : List Bool) : List (List Int) :=
  specBurnsAux len deleteIds 0

/-- The inventory state the pagination produces once it terminates having
accumulated exactly the records `recs` (the fetched arrays before reversal). -/
def inventoryState (recs : List SourceNft) : FetchState :=
  { route := none
    serials := recs.map fun n => n.serial_number
    metadata := recs.map decodedMetadata
    deleteIds := recs.map fun n => n.deleted }

/-! ## Token details and creation request (lines 56–120, 238–260) -/

/-- The JSON value found in a mirror-node field such as `max_supply`:
a string, a number, `null`, or absent (`undefined`). -/
inductive MirrorVal where
  | vStr (s : String)
  | vNum (n : Int)
  | vNull
  | vUndef
deriving DecidableEq, Repr

/-- A JavaScript number restricted to what `Number(…)` yields on mirror-node
supply fields: an integer or `NaN`. -/
inductive JsNum where
  | nan
  | num (n : Int)
deriving DecidableEq, Repr

/-- Decimal digit string to its value (`none` on a non-digit). -/
def decDigits : List Char → Option Nat
  | [] => some 0
  | c :: cs =>
    if '0' ≤ c ∧ c ≤ '9' then
      (decDigits cs).map fun rest => (c.toNat - '0'.toNat) * 10 ^ cs.length + rest
    else none

/-- JavaScript `Number(s)` on the strings the mirror node returns in
`max_supply`: the empty string is `0`, a non-empty all-digit string is its
decimal value, anything else is `NaN`.  (The full `Number` coercion —
signs, whitespace, hex, exponents — never arises for this field.) -/
def strToNumber (s : String) : JsNum :=
  if s.data = [] then .num 0
  else match decDigits s.data with
    | some n => .num n
    | none => .nan

/-- JavaScript `Number(x)` on a mirror field value (line 80):
`Number(null) = 0`, `Number(undefined) = NaN`. -/
def toNumber : MirrorVal → JsNum
  | .vStr s => strToNumber s
  | .vNum n => .num n
  | .vNull => .num 0
  | .vUndef => .nan

/-- `Number(tokenDetails.max_supply) > 0` (line 80): any comparison with
`NaN` is false. -/
def jsNumPos : JsNum → Bool
  | .nan => false
  | .num n => 0 < n

/-- Truthiness of the `custom_fees` sub-fields (lines 91, 100).  The mirror
returns arrays there; an array — even empty — is truthy, so each flag records
mere field presence (a missing/`null`/`undefined` field is falsy). -/
structure CustomFees where
  royalty_fees : Bool
  fixed_fees : Bool
deriving DecidableEq, Repr

/-- The object built by `getTokenDetails` (lines 245–252): the six fields
extracted from the mirror response.  `custom_fees = none` models a falsy
field. -/
structure TokenDetails where
  symbol : String
  name : String
  max_supply : MirrorVal
  type : String
  custom_fees : Option CustomFees
  memo : String
deriving DecidableEq, Repr

/-- `TokenSupplyType` of the created token. -/
inductive SupplyType where
  | finite
  | infinite
deriving DecidableEq, Repr

/-- The single fee object attached to the creation request (lines 89–107):
a royalty fee (1/100, operator collector), optionally carrying a 1-ℏ fixed
fallback fee; when only fixed fees existed on the source, a bare royalty fee
holding just the fallback. -/
inductive FeeObj where
  | royaltyOnly
  | royaltyWithFallback
  | fallbackOnly
deriving DecidableEq, Repr

/-- The `TokenCreateTransaction` assembled in lines 69–107, by field. -/
structure CreateRequest where
  name : String
  symbol : String
  memo : String
  initialSupply : Nat
  supplyType : SupplyType
  maxSupply : Option Int
  maxTxFeeHbar : Nat
  customFees : List FeeObj
deriving DecidableEq, Repr

/-- Lines 89–107: at most one combined fee object. -/
def feesOf : Option CustomFees → List FeeObj
  | none => []
  | some c =>
    if c.royalty_fees then
      if c.fixed_fees then [.royaltyWithFallback] else [.royaltyOnly]
    else if c.fixed_fees then [.fallbackOnly]
    else []

/-- The creation request built from a token's details (lines 69–107):
zero initial supply, fee cap 80 ℏ, finite supply with the source's
`max_supply` when `Number(max_supply) > 0`, else infinite. -/
def buildCreateRequest (td : TokenDetails) : CreateRequest :=
  { name := td.name
    symbol := td.symbol
    memo := td.memo
    initialSupply := 0
    supplyType := if jsNumPos (toNumber td.max_supply) then .finite else .infinite
    maxSupply :=
      match toNumber td.max_supply with
      | .num n => if 0 < n then some n else none
      | .nan => none
    maxTxFeeHbar := 80
    customFees := feesOf td.custom_fees }

/-! ## Per-token pipeline (lines 56–206) -/

/-- Line 205: the summary line pushed to `strOutput` for a migrated token. -/
def resultLine (token newToken : String) : String :=
  "Mainnet Token " ++ token ++ " migrated to Testnet " ++ newToken

/-- What one iteration of the `for (const token of tokenList)` loop does:
skip because the mirror lookup failed (line 58), skip because the token is
not an NFT (line 62), or migrate, recording the creation request, the
mint/burn trace and the summary line. -/
inductive TokenOutcome where
  | notFound
  | notNft
  | migrated (req : CreateRequest) (trace : List Action) (line : String)
deriving DecidableEq, Repr

/-- The `console.error` diagnostic emitted when a token is skipped
(lines 59 and 63). -/
def skipDiagnostic (token : String) : TokenOutcome → Option String
  | .notFound => some ("Token " ++ token ++ " not found on mirror node")
  | .notNft =>
      some ("Token " ++ token ++ " is not an NFT. Only NFTs are not supported for migration")
  | .migrated _ _ _ => none

/-- The write transactions a token's processing submits: none when skipped. -/
def writesOf : TokenOutcome → List Action
  | .notFound => []
  | .notNft => []
  | .migrated _ tr _ => tr

/-- The creation request a token's processing submits: none when skipped. -/
def createOf : TokenOutcome → Option CreateRequest
  | .notFound => none
  | .notNft => none
  | .migrated req _ _ => some req

/-- One iteration of the token loop (lines 56–206).  `mirror` is
`getTokenDetails` (lines 238–260: `null` on a transport or not-found error),
`inventory` gives the NFT records the pagination accumulates for the token
(a terminating fetch; claims about the loop itself use `fetchStep`), and
`newIds` is the token id the creation receipt returns.  Receipts are taken
as successful: a failed receipt calls `process.exit(1)` and produces no
outcome at all. -/
def processToken (mirror : String → Option TokenDetails)
    (inventory : String → List SourceNft) (newIds : String → String)
    (token : String) : TokenOutcome :=
  match mirror token with
  | none => .notFound
  | some td =>
    if td.type ≠ "NON_FUNGIBLE_UNIQUE" then .notNft
    else
      let req := buildCreateRequest td
      let newToken := newIds token
      let rev := reverseAll (inventoryState (inventory token))
      .migrated req (mintLoop rev.serials rev.metadata rev.deleteIds)
        (resultLine token newToken)

/-- The whole token loop: each entry of `tokenList` is processed in turn, a
skipped token only costing its diagnostic (`continue`, lines 60 and 64). -/
def runTokens (mirror : String → Option TokenDetails)
    (inventory : String → List SourceNft) (newIds : String → String)
    (tokens : List String) : List (String × TokenOutcome) :=
  tokens.map fun t => (t, processToken mirror inventory newIds t)

/-! ## Command line (lines 36–47, 262–264) -/

/-- JavaScript `s.split(',')` on the character list: always at least one
(possibly empty) field. -/
def splitComma : List Char → List (List Char)
  | [] => [[]]
  | c :: rest =>
    if c = ',' then [] :: splitComma rest
    else
      match splitComma rest with
      | [] => [[c]]
      | p :: ps => (c :: p) :: ps

/-- Line 43: `process.argv[2].split(',')`. -/
def parseTokenList (arg : String) : List String :=
  (splitComma arg.data).map fun l => { data := l }

/-- How `main` begins (lines 36–47): print help, throw before any migration,
or go on to migrate a token list. -/
inductive MainOutcome where
  | help
  | thrown (msg : String)
  | ran (tokens : List String)
deriving DecidableEq, Repr

/-- Lines 36–47 of `main`, on the `-h` flag and `process.argv[2]`.
A missing second argument makes `process.argv[2].split` a property access on
`undefined`, which throws a `TypeError` before any migration. -/
def mainStep (helpFlag : Bool) (arg : Option String) : MainOutcome :=
  if helpFlag then .help
  else
    match arg with
    | none => .thrown "TypeError: Cannot read properties of undefined (reading 'split')"
    | some s =>
      let tokenList := parseTokenList s
      if tokenList.length = 0 then .thrown "Token list is empty"
      else .ran tokenList

/-- The process exit status as determined by lines 262–264 when `main` ends
in one of the early outcomes: `main().catch((err) => console.error(err))`
*handles* a rejection and only logs it, so the process still exits `0`; a
run that reaches migration exits later (receipt failures call
`process.exit(1)`), hence `none`. -/
def exitStatusEarly : MainOutcome → Option Nat
  | .help => some 0
  | .thrown _ => some 0
  | .ran _ => none

/-! ## Helper lemmas -/

/-- `split(',')` never returns an empty array. -/
theorem splitComma_ne_nil (l : List Char) : splitComma l ≠ [] := by
  match l with
  | [] => simp [splitComma]
  | c :: rest =>
    simp only [splitComma]
    split
    · simp
    · split <;> simp

theorem parseTokenList_ne_nil (s : String) : parseTokenList s ≠ [] := by
  simpa [parseTokenList] using splitComma_ne_nil s.data

/-! ## C10 -/

/-- C10: a present command-line argument, split on commas, always yields at
least one element, so the `Token list is empty` branch of line 45 can never
throw; the empty-string argument yields the token list `[""]` and proceeds
to migrate the token named by the empty string. -/
theorem C10_empty_branch_unreachable :
    (∀ (s : String), 1 ≤ (parseTokenList s).length) ∧
    (∀ (helpFlag : Bool) (s : String),
      mainStep helpFlag (some s) ≠ .thrown "Token list is empty") ∧
    mainStep false (some "") = .ran [""] := by
  refine ⟨fun s => ?_, fun helpFlag s => ?_, rfl⟩
  · have h := parseTokenList_ne_nil s
    cases hp : parseTokenList s with
    | nil => exact absurd hp h
    | cons a l => simp
  · have h : (parseTokenList s).length ≠ 0 := by
      simpa using parseTokenList_ne_nil s
    cases helpFlag <;> simp [mainStep, h]

/-! ## C2 -/

/-- C2 counterexample: with the empty string as argument the process does
*not* terminate early — `''.split(',')` is `['']` and migration of the token
`""` is attempted — and with the argument missing the thrown `TypeError` is
handled by `main().catch` (line 262), which only logs, so the process exits
with status 0, not 1. -/
theorem C2_counterexample :
    mainStep false (some "") = .ran [""] ∧
    exitStatusEarly (mainStep false none) = some 0 ∧
    exitStatusEarly (mainStep false none) ≠ some 1 := by
  refine ⟨rfl, rfl, by simp [mainStep, exitStatusEarly]⟩

/-- C2 amended: a missing token-list argument makes `main` throw (a
`TypeError` from `undefined.split`) before any migration, but the rejection
is handled by the top-level `.catch`, which only logs — the process exits 0,
not 1; an empty-string argument causes no failure at all: the token list
becomes `[""]` and migration of the token named by the empty string is
attempted. -/
theorem C2_amended :
    (∃ msg, mainStep false none = .thrown msg) ∧
    exitStatusEarly (mainStep false none) = some 0 ∧
    mainStep false (some "") = .ran [""] :=
  ⟨⟨_, rfl⟩, rfl, rfl⟩

/-! ## C4 -/

/-- C4: when fetching the current page fails, the loop body leaves the whole
state — in particular the continuation route — unchanged, so every later
iteration requests the same page again; under a persistently failing page
the state is a fixed point forever, the route never becomes `null` (the loop
never terminates), and nothing is aborted or skipped. -/
theorem C4_failed_page_retries_forever (pages : String → Option Page)
    (st : FetchState) (r : String) (hroute : st.route = some r)
    (hfail : pages r = none) :
    fetchStep pages st = st ∧
    (∀ n, (fetchStep pages)^[n] st = st) ∧
    (∀ n, ((fetchStep pages)^[n] st).route ≠ none) := by
  have hstep : fetchStep pages st = st := by
    simp only [fetchStep, hroute, hfail]
  have hiter : ∀ n, (fetchStep pages)^[n] st = st := by
    intro n
    induction n with
    | zero => rfl
    | succ n ih => rw [Function.iterate_succ_apply, hstep, ih]
  exact ⟨hstep, hiter, fun n => by rw [hiter n, hroute]; simp⟩

/-- Witness for C4 at a concrete token and an always-failing transport. -/
theorem C4_witness :
    fetchStep (fun _ => none) (initFetchState "0.0.111") = initFetchState "0.0.111" ∧
    (fetchStep (fun _ => none))^[5] (initFetchState "0.0.111") = initFetchState "0.0.111" := by
  have h := C4_failed_page_retries_forever (fun _ => none) (initFetchState "0.0.111")
    ("/api/v1/tokens/0.0.111/nfts?limit=100") rfl rfl
  exact ⟨h.1, h.2.1 5⟩

/-! ## C7 -/

/-- C7: the three parallel arrays are projections of one and the same record
list (hence equal lengths and index-aligned entries) at the start of a
token's fetch, after every loop iteration — successful or failed — and after
the lockstep reversal of lines 151–153. -/
theorem C7_parallel_arrays_aligned (pages : String → Option Page)
    (token : String) (st : FetchState) (h : Aligned st) :
    (st.serials.length = st.metadata.length ∧
      st.metadata.length = st.deleteIds.length) ∧
    Aligned (initFetchState token) ∧
    Aligned (fetchStep pages st) ∧
    Aligned (reverseAll st) := by
  obtain ⟨recs, hs, hm, hd⟩ := h
  refine ⟨⟨by rw [hs, hm]; simp, by rw [hm, hd]; simp⟩,
    ⟨[], by simp [initFetchState]⟩, ?_, ?_⟩
  · cases hr : st.route with
    | none => simpa [fetchStep, hr] using (⟨recs, hs, hm, hd⟩ : Aligned st)
    | some r =>
      cases hp : pages r with
      | none => simpa [fetchStep, hr, hp] using (⟨recs, hs, hm, hd⟩ : Aligned st)
      | some page =>
        refine ⟨recs ++ page.nfts, ?_, ?_, ?_⟩ <;>
          simp [fetchStep, hr, hp, hs, hm, hd]
  · exact ⟨recs.reverse, by simp [reverseAll, hs], by simp [reverseAll, hm],
      by simp [reverseAll, hd]⟩

/-- Witness for C7 applied to a one-page state during an actual fetch. -/
theorem C7_witness :
    Aligned (fetchStep
      (fun _ => some { nfts := [{ serial_number := 1, metadata := "QQ==", deleted := false }],
                       next := none })
      (initFetchState "0.0.111")) := by
  have h := C7_parallel_arrays_aligned
    (fun _ => some { nfts := [{ serial_number := 1, metadata := "QQ==", deleted := false }],
                     next := none })
    "0.0.111" (initFetchState "0.0.111") ⟨[], by simp [initFetchState]⟩
  exact h.2.2.1

/-! ## Minting-loop lemmas -/

/-- The batch sizes the loop of line 158 produces for an inventory of `len`
records, starting at index `i`. -/
def batchLens (len i : Nat) : List Nat :=
  if i < len then min batchSize (len - i) :: batchLens len (i + batchSize) else []
termination_by len - i
decreasing_by simp [batchSize]; omega

/-- Trace projections distribute over the loop structure. -/
theorem mintsOf_append (t1 t2 : List Action) :
    mintsOf (t1 ++ t2) = mintsOf t1 ++ mintsOf t2 :=
  List.filterMap_append t1 t2 _

theorem mintsOf_cons_mint (p : List (List Nat)) (tr : List Action) :
    mintsOf (Action.mint p :: tr) = p :: mintsOf tr := by
  simp [mintsOf]

theorem mintsOf_burnpart (c : Prop) [Decidable c] (x : List Int) :
    mintsOf (if c then [] else [Action.burn x]) = [] := by
  split <;> simp [mintsOf]

theorem burnsOf_append (t1 t2 : List Action) :
    burnsOf (t1 ++ t2) = burnsOf t1 ++ burnsOf t2 :=
  List.filterMap_append t1 t2 _

theorem burnsOf_cons_mint (p : List (List Nat)) (tr : List Action) :
    burnsOf (Action.mint p :: tr) = burnsOf tr := by
  simp [burnsOf]

theorem burnsOf_burnpart (c : Prop) [Decidable c] (x : List Int) :
    burnsOf (if c then [] else [Action.burn x]) = if c then [] else [x] := by
  split <;> simp [burnsOf]

/-- Concatenating the mint payload batches recovers every (encoded) metadata
entry from index `i` on, exactly once and in order. -/
theorem mintsOf_mintLoopAux_flatten (s : List Int) (m : List (List Nat))
    (d : List Bool) (hm : m.length = s.length) (i : Nat) :
    (mintsOf (mintLoopAux s m d i)).flatten = (m.drop i).map utf8Encode := by
  induction i using (mintLoopAux.induct s m d) with
  | case1 i hlt ih =>
    rw [mintLoopAux, if_pos hlt, batchActions]
    rw [List.cons_append, mintsOf_cons_mint, mintsOf_append, mintsOf_burnpart,
      List.nil_append, List.flatten_cons, ih]
    rw [← List.map_append]
    congr 1
    have hdd : m.drop (i + batchSize) = (m.drop i).drop batchSize := by
      rw [List.drop_drop, Nat.add_comm]
    rw [hdd]
    exact List.take_append_drop batchSize (m.drop i)
  | case2 i hge =>
    rw [mintLoopAux, if_neg hge]
    have hnil : m.drop i = [] := by
      apply List.drop_eq_nil_of_le
      omega
    simp [mintsOf, hnil]

/-- The number of mint batches from index `i` on is `⌈(len − i)/10⌉`. -/
theorem mintsOf_mintLoopAux_length (s : List Int) (m : List (List Nat))
    (d : List Bool) (i : Nat) :
    (mintsOf (mintLoopAux s m d i)).length = (s.length - i + 9) / 10 := by
  induction i using (mintLoopAux.induct s m d) with
  | case1 i hlt ih =>
    rw [mintLoopAux, if_pos hlt, batchActions]
    rw [List.cons_append, mintsOf_cons_mint, mintsOf_append, mintsOf_burnpart,
      List.nil_append, List.length_cons, ih]
    simp only [batchSize] at hlt ih ⊢
    omega
  | case2 i hge =>
    rw [mintLoopAux, if_neg hge]
    simp only [mintsOf, List.filterMap_nil, List.length_nil]
    omega

/-- Every mint batch carries at most ten payloads. -/
theorem mintsOf_mintLoopAux_sizes (s : List Int) (m : List (List Nat))
    (d : List Bool) (i : Nat) :
    ∀ b ∈ mintsOf (mintLoopAux s m d i), b.length ≤ 10 := by
  induction i using (mintLoopAux.induct s m d) with
  | case1 i hlt ih =>
    intro b hb
    rw [mintLoopAux, if_pos hlt, batchActions] at hb
    rw [List.cons_append, mintsOf_cons_mint, mintsOf_append, mintsOf_burnpart,
      List.nil_append] at hb
    rcases List.mem_cons.mp hb with hb | hb
    · subst hb
      calc (((m.drop i).take batchSize).map utf8Encode).length
          = ((m.drop i).take batchSize).length := List.length_map _ _
        _ ≤ batchSize := List.length_take_le _ _
    · exact ih b hb
  | case2 i hge =>
    intro b hb
    rw [mintLoopAux, if_neg hge] at hb
    simp [mintsOf] at hb

/-- On an all-false deletion array every indexed read yields `false`. -/
theorem getD_false_of_all_false (d : List Bool) (h : ∀ x ∈ d, x = false)
    (j : Nat) : d[j]?.getD false = false := by
  cases hg : d[j]? with
  | none => rfl
  | some b => simpa using h b (List.getElem?_mem hg)

theorem filterByFlags_all_false (ss : List Int) (ds : List Bool)
    (h : ∀ x ∈ ds, x = false) : filterByFlags ss ds = [] := by
  rw [filterByFlags]
  have hnil : (ss.enum.filter fun p => ds.getD p.1 false) = [] := by
    rw [List.filter_eq_nil_iff]
    intro p hp
    rw [List.getD_eq_getElem?_getD]
    simp [getD_false_of_all_false ds h p.1]
  rw [hnil]
  rfl

/-- If no deletion flag is true, the trace contains no burn transaction. -/
theorem burnsOf_mintLoopAux_all_false (s : List Int) (m : List (List Nat))
    (d : List Bool) (hfalse : ∀ x ∈ d, x = false) (i : Nat) :
    burnsOf (mintLoopAux s m d i) = [] := by
  induction i using (mintLoopAux.induct s m d) with
  | case1 i hlt ih =>
    rw [mintLoopAux, if_pos hlt, batchActions]
    have hempty : filterByFlags ((s.drop i).take batchSize)
        ((d.drop i).take batchSize) = [] :=
      filterByFlags_all_false _ _ fun x hx =>
        hfalse x (List.mem_of_mem_drop (List.mem_of_mem_take hx))
    rw [List.cons_append, burnsOf_cons_mint, burnsOf_append, burnsOf_burnpart,
      if_pos hempty, List.nil_append, ih]
  | case2 i hge =>
    rw [mintLoopAux, if_neg hge]
    rfl

/-- The batch sizes of the whole loop, as payload-list lengths. -/
theorem mintsOf_mintLoopAux_lens (s : List Int) (m : List (List Nat))
    (d : List Bool) (hm : m.length = s.length) (i : Nat) :
    (mintsOf (mintLoopAux s m d i)).map List.length = batchLens s.length i := by
  induction i using (mintLoopAux.induct s m d) with
  | case1 i hlt ih =>
    rw [mintLoopAux, if_pos hlt, batchActions, batchLens, if_pos hlt]
    rw [List.cons_append, mintsOf_cons_mint, mintsOf_append, mintsOf_burnpart,
      List.nil_append, List.map_cons, ih]
    congr 1
    rw [List.length_map, List.length_take, List.length_drop, hm]
  | case2 i hge =>
    rw [mintLoopAux, if_neg hge, batchLens, if_neg hge]
    rfl

/-! ## C3 -/

/-- Decoding a validly encoded scalar consumes exactly its encoding and
yields exactly that scalar, whatever follows. -/
theorem utf8Decode_encodeChar_append (c : Nat) (h : ValidScalar c)
    (rest : List Nat) :
    utf8Decode (utf8EncodeChar c ++ rest) = c :: utf8Decode rest := by
  obtain ⟨hlt, hsurr⟩ := h
  by_cases h1 : c < 0x80
  · rw [utf8EncodeChar, if_pos h1]
    simp only [List.cons_append, List.nil_append]
    rw [utf8Decode.eq_def]
    simp only []
    rw [if_pos h1]
  · by_cases h2 : c < 0x800
    · rw [utf8EncodeChar, if_neg h1, if_pos h2]
      simp only [List.cons_append, List.nil_append]
      rw [utf8Decode.eq_def]
      simp only []
      rw [if_neg (by omega), if_neg (by omega), if_pos (by omega)]
      rw [if_pos (show 0x80 ≤ 0x80 + c % 64 ∧ 0x80 + c % 64 ≤ 0xBF by omega)]
      congr 1
      omega
    · by_cases h3 : c < 0x10000
      · rw [utf8EncodeChar, if_neg h1, if_neg h2, if_pos h3]
        simp only [List.cons_append, List.nil_append]
        rw [utf8Decode.eq_def]
        simp only []
        rw [if_neg (by omega), if_neg (by omega), if_neg (by omega),
          if_pos (by omega)]
        have hcond :
            (if 0xE0 + c / 4096 = 0xE0 then
              0xA0 ≤ 0x80 + c / 64 % 64 ∧ 0x80 + c / 64 % 64 ≤ 0xBF
            else if 0xE0 + c / 4096 = 0xED then
              0x80 ≤ 0x80 + c / 64 % 64 ∧ 0x80 + c / 64 % 64 ≤ 0x9F
            else 0x80 ≤ 0x80 + c / 64 % 64 ∧ 0x80 + c / 64 % 64 ≤ 0xBF) := by
          split_ifs <;> omega
        rw [if_pos hcond]
        rw [if_pos (show 0x80 ≤ 0x80 + c % 64 ∧ 0x80 + c % 64 ≤ 0xBF by omega)]
        congr 1
        omega
      · rw [utf8EncodeChar, if_neg h1, if_neg h2, if_neg h3]
        simp only [List.cons_append, List.nil_append]
        rw [utf8Decode.eq_def]
        simp only []
        rw [if_neg (by omega), if_neg (by omega), if_neg (by omega),
          if_neg (by omega), if_pos (by omega)]
        have hcond :
            (if 0xF0 + c / 262144 = 0xF0 then
              0x90 ≤ 0x80 + c / 4096 % 64 ∧ 0x80 + c / 4096 % 64 ≤ 0xBF
            else if 0xF0 + c / 262144 = 0xF4 then
              0x80 ≤ 0x80 + c / 4096 % 64 ∧ 0x80 + c / 4096 % 64 ≤ 0x8F
            else 0x80 ≤ 0x80 + c / 4096 % 64 ∧ 0x80 + c / 4096 % 64 ≤ 0xBF) := by
          split_ifs <;> omega
        rw [if_pos hcond]
        rw [if_pos (show 0x80 ≤ 0x80 + c / 64 % 64 ∧ 0x80 + c / 64 % 64 ≤ 0xBF by omega)]
        rw [if_pos (show 0x80 ≤ 0x80 + c % 64 ∧ 0x80 + c % 64 ≤ 0xBF by omega)]
        congr 1
        omega

/-- The WHATWG decode of a valid UTF-8 encoding recovers the code points. -/
theorem utf8Decode_utf8Encode (cs : List Nat)
    (h : ∀ c ∈ cs, ValidScalar c) :
    utf8Decode (utf8Encode cs) = cs := by
  induction cs with
  | nil => rfl
  | cons c cs ih =>
    rw [utf8Encode, List.map_cons, List.flatten_cons, ← utf8Encode]
    rw [utf8Decode_encodeChar_append c (h c (by simp)) _]
    rw [ih fun x hx => h x (by simp [hx])]

/-- C3 counterexample: the metadata blob `"/w=="` base64-decodes to the
single byte `0xFF`, which is not valid UTF-8; `toString('utf-8')` replaces
it by U+FFFD and `Buffer.from` re-encodes that to `EF BF BD`, so the raw
payload attached to the mint transaction is *not* the base64-decoding — the
decode/re-encode round trip is not lossless for every possible blob. -/
theorem C3_counterexample :
    b64Decode "/w==" = [0xFF] ∧
    mintPayloadOfMetadata "/w==" = [0xEF, 0xBF, 0xBD] ∧
    mintPayloadOfMetadata "/w==" ≠ b64Decode "/w==" := by
  refine ⟨rfl, rfl, by decide⟩

/-- C3 amended: the decode/re-encode round trip of lines 136 and 163 is the
identity exactly on *valid UTF-8* metadata blobs: for any code-point
sequence of valid Unicode scalars, decoding its UTF-8 bytes and re-encoding
returns the same bytes, and whenever a fetched metadata string's
base64-decoding is such a valid encoding the mint payload equals the
base64-decoding; for invalid blobs (e.g. the byte `0xFF`) the round trip is
lossy. -/
theorem C3_roundtrip_lossless_iff_valid_utf8 :
    (∀ cs : List Nat, (∀ c ∈ cs, ValidScalar c) →
      utf8Encode (utf8Decode (utf8Encode cs)) = utf8Encode cs) ∧
    (∀ (ms : String) (cs : List Nat), b64Decode ms = utf8Encode cs →
      (∀ c ∈ cs, ValidScalar c) →
      mintPayloadOfMetadata ms = b64Decode ms) := by
  constructor
  · intro cs h
    rw [utf8Decode_utf8Encode cs h]
  · intro ms cs hb hv
    rw [mintPayloadOfMetadata, hb, utf8Decode_utf8Encode cs hv]

/-- Witness for C3: a three-scalar string (1-, 3- and 4-byte encodings)
round-trips, and the payload for the base64 metadata `"QQ=="` (the valid
UTF-8 blob `"A"`) equals its base64-decoding. -/
theorem C3_witness :
    utf8Encode (utf8Decode (utf8Encode [72, 8364, 128169])) =
      utf8Encode [72, 8364, 128169] ∧
    mintPayloadOfMetadata "QQ==" = b64Decode "QQ==" :=
  ⟨C3_roundtrip_lossless_iff_valid_utf8.1 [72, 8364, 128169] (by decide),
    C3_roundtrip_lossless_iff_valid_utf8.2 "QQ==" [65] rfl (by decide)⟩

/-! ## C5 -/

/-- C5: for an inventory of `N` records (three equal-length arrays) the loop
of lines 156–203 produces exactly `⌈N/10⌉` mint batches, each of at most ten
payloads, whose concatenation is the whole (encoded) metadata sequence in
order — every index in exactly one batch, batches in increasing index
order — and when every deletion flag is false no burn transaction is
submitted; in particular 25 records give exactly three mint batches of
sizes 10, 10, 5 and, all flags false, zero burns. -/
theorem C5_batching_partition :
    (∀ (s : List Int) (m : List (List Nat)) (d : List Bool),
      m.length = s.length →
      (mintsOf (mintLoop s m d)).length = (s.length + 9) / 10 ∧
      (mintsOf (mintLoop s m d)).flatten = m.map utf8Encode ∧
      (∀ b ∈ mintsOf (mintLoop s m d), b.length ≤ 10) ∧
      ((∀ x ∈ d, x = false) → burnsOf (mintLoop s m d) = [])) ∧
    (mintsOf (mintLoop (List.replicate 25 (1 : Int)) (List.replicate 25 [65])
        (List.replicate 25 false))).map List.length = [10, 10, 5] ∧
    burnsOf (mintLoop (List.replicate 25 (1 : Int)) (List.replicate 25 [65])
        (List.replicate 25 false)) = [] := by
  refine ⟨fun s m d hm => ⟨?_, ?_, ?_, ?_⟩, ?_, ?_⟩
  · rw [mintLoop, mintsOf_mintLoopAux_length]
    omega
  · rw [mintLoop, mintsOf_mintLoopAux_flatten s m d hm 0, List.drop_zero]
  · rw [mintLoop]
    exact mintsOf_mintLoopAux_sizes s m d 0
  · intro hf
    rw [mintLoop]
    exact burnsOf_mintLoopAux_all_false s m d hf 0
  · rw [mintLoop, mintsOf_mintLoopAux_lens _ _ _ (by simp) 0]
    rw [List.length_replicate]
    rw [batchLens]
    norm_num [batchSize]
    rw [batchLens]
    norm_num [batchSize]
    rw [batchLens]
    norm_num [batchSize]
    rw [batchLens]
    norm_num [batchSize]
  · rw [mintLoop]
    exact burnsOf_mintLoopAux_all_false _ _ _
      (fun x hx => List.eq_of_mem_replicate hx) 0

/-- Witness for C5 on a 12-record inventory: two batches, no burns. -/
theorem C5_witness :
    (mintsOf (mintLoop (List.replicate 12 (1 : Int)) (List.replicate 12 [65])
        (List.replicate 12 false))).length = 2 ∧
    burnsOf (mintLoop (List.replicate 12 (1 : Int)) (List.replicate 12 [65])
        (List.replicate 12 false)) = [] := by
  have h := C5_batching_partition.1 (List.replicate 12 (1 : Int))
    (List.replicate 12 [65]) (List.replicate 12 false) (by simp)
  exact ⟨by simpa using h.1, h.2.2.2 fun x hx => List.eq_of_mem_replicate hx⟩

/-! ## C1 -/

/-- When the reversed source serial at every global position `g` is `g + 1`
(the value the target network will assign to the `g`-th minted NFT), each
batch's serial slice coincides with that batch's newly assigned serials. -/
theorem serialSlice_eq_newSerials (s : List Int)
    (halign : ∀ g (hg : g < s.length), s.get ⟨g, hg⟩ = (g : Int) + 1)
    (i : Nat) :
    (s.drop i).take batchSize = newSerialsFrom i (min batchSize (s.length - i)) := by
  apply List.ext_getElem
  · simp [newSerialsFrom]
  · intro j h1 h2
    have hj : j < min batchSize (s.length - i) := by
      simpa using h1
    rw [List.getElem_take, List.getElem_drop]
    have hb : i + j < s.length := by omega
    simp only [newSerialsFrom, List.getElem_map, List.getElem_range'_1]
    have hval : s[i + j] = ((i + j : Nat) : Int) + 1 := by
      simpa using halign (i + j) hb
    rw [hval, Int.ofNat_eq_natCast]
    push_cast
    ring

/-- The code's burn sets equal the spec's newly-minted burn sets under the
positional-alignment hypothesis. -/
theorem burnsOf_mintLoopAux_eq_spec (s : List Int) (m : List (List Nat))
    (d : List Bool)
    (halign : ∀ g (hg : g < s.length), s.get ⟨g, hg⟩ = (g : Int) + 1)
    (i : Nat) :
    burnsOf (mintLoopAux s m d i) = specBurnsAux s.length d i := by
  induction i using (mintLoopAux.induct s m d) with
  | case1 i hlt ih =>
    rw [mintLoopAux, if_pos hlt, batchActions]
    rw [List.cons_append, burnsOf_cons_mint, burnsOf_append, burnsOf_burnpart, ih]
    rw [serialSlice_eq_newSerials s halign i]
    conv_rhs => rw [specBurnsAux]
    rw [if_pos hlt]
  | case2 i hge =>
    rw [mintLoopAux, if_neg hge, specBurnsAux, if_neg hge]
    rfl

/-- C1 counterexample: for a one-record inventory whose (only) source serial
is 7 with deletion flag true, the code's burn request submits the *original*
serial 7 (line 184 filters `serialSlice`, the source serials), while the
newly minted serial of that batch is 1; the two burn sets differ. -/
theorem C1_counterexample :
    burnsOf (mintLoop [(7 : Int)] [[65]] [true]) = [[7]] ∧
    specBurns 1 [true] = [[1]] ∧
    burnsOf (mintLoop [(7 : Int)] [[65]] [true]) ≠ specBurns 1 [true] := by
  have h1 : burnsOf (mintLoop [(7 : Int)] [[65]] [true]) = [[7]] := by
    rw [mintLoop]
    unfold mintLoopAux
    norm_num [batchSize]
    unfold mintLoopAux
    norm_num [batchActions, batchSize, burnsOf, filterByFlags, List.enum]
    rfl
  have h2 : specBurns 1 [true] = [[1]] := by
    simp [specBurns, specBurnsAux, newSerialsFrom, batchSize, filterByFlags,
      List.enum, List.range']
  refine ⟨h1, h2, ?_⟩
  rw [h1, h2]
  simp

/-- C1 amended: the burn set of each batch consists of the *original* source
serials at the positions whose deletion flag was true; it equals the batch's
newly minted serials exactly under the positional-alignment assumption the
spec itself states (reversed source serial at global position `g` is `g+1`,
the serial the zero-supply target assigns to the `g`-th minted NFT) — as for
a contiguous source collection — and differs otherwise. -/
theorem C1_burns_under_alignment (s : List Int) (m : List (List Nat))
    (d : List Bool)
    (halign : ∀ g (hg : g < s.length), s.get ⟨g, hg⟩ = (g : Int) + 1) :
    burnsOf (mintLoop s m d) = specBurns s.length d := by
  rw [mintLoop, specBurns]
  exact burnsOf_mintLoopAux_eq_spec s m d halign 0

/-- Witness for C1 on an aligned two-record inventory with one deletion. -/
theorem C1_witness :
    burnsOf (mintLoop [(1 : Int), 2] [[65], [66]] [true, false]) =
      specBurns 2 [true, false] := by
  have h := C1_burns_under_alignment [(1 : Int), 2] [[65], [66]] [true, false]
    (by
      intro g hg
      simp only [List.length_cons, List.length_nil] at hg
      interval_cases g <;> rfl)
  simpa using h

/-! ## C9 -/

/-- The source descriptor of the spec's §8 scenario: `{name:"Foo",
symbol:"FOO", type:"NON_FUNGIBLE_UNIQUE", max_supply:"0"}`. -/
def fooDescriptor : TokenDetails :=
  { symbol := "FOO"
    name := "Foo"
    max_supply := .vStr "0"
    type := "NON_FUNGIBLE_UNIQUE"
    custom_fees := none
    memo := "" }

/-- C9: the creation request uses finite supply carrying the source's max
supply exactly when `Number(max_supply)` is strictly positive, and infinite
supply otherwise (so in particular for `"0"`, an absent field, or a
non-numeric string, all of which make `Number(…) > 0` false); and in the
scenario of token `0.0.111` with descriptor `{name:"Foo", symbol:"FOO",
type:"NON_FUNGIBLE_UNIQUE", max_supply:"0"}` and an empty inventory, the
creation request is infinite-supply, no mint or burn transaction is
submitted, and the summary line is
`"Mainnet Token 0.0.111 migrated to Testnet <newId>"`. -/
theorem C9_supply_type_and_empty_inventory :
    (∀ td : TokenDetails,
      (∀ n : Int, toNumber td.max_supply = .num n → 0 < n →
        (buildCreateRequest td).supplyType = .finite ∧
        (buildCreateRequest td).maxSupply = some n) ∧
      (jsNumPos (toNumber td.max_supply) = false →
        (buildCreateRequest td).supplyType = .infinite ∧
        (buildCreateRequest td).maxSupply = none)) ∧
    (∀ newIds : String → String,
      processToken (fun t => if t = "0.0.111" then some fooDescriptor else none)
        (fun _ => []) newIds "0.0.111" =
      .migrated (buildCreateRequest fooDescriptor) []
        ("Mainnet Token 0.0.111 migrated to Testnet " ++ newIds "0.0.111")) ∧
    (buildCreateRequest fooDescriptor).supplyType = .infinite ∧
    jsNumPos (toNumber fooDescriptor.max_supply) = false := by
  refine ⟨fun td => ⟨fun n hn hpos => ?_, fun hneg => ?_⟩, fun newIds => ?_, ?_, ?_⟩
  · constructor
    · simp [buildCreateRequest, hn, jsNumPos, hpos]
    · simp [buildCreateRequest, hn, hpos]
  · constructor
    · simp [buildCreateRequest, hneg]
    · cases h : toNumber td.max_supply with
      | nan => simp [buildCreateRequest, h]
      | num n =>
        rw [h] at hneg
        simp only [jsNumPos, decide_eq_false_iff_not] at hneg
        simp [buildCreateRequest, h, hneg]
  · have hml : mintLoop [] [] [] = [] := by
      rw [mintLoop]
      unfold mintLoopAux
      simp
    rw [processToken]
    norm_num [fooDescriptor, inventoryState, reverseAll, resultLine, hml]
    congr 1
  · rfl
  · rfl

/-- Witness for C9: the scenario descriptor (max supply `"0"`) gets infinite
supply; a descriptor with max supply `"100"` gets finite supply of 100. -/
theorem C9_witness :
    (buildCreateRequest fooDescriptor).supplyType = SupplyType.infinite ∧
    (buildCreateRequest
      { symbol := "B", name := "B", max_supply := .vStr "100",
        type := "NON_FUNGIBLE_UNIQUE", custom_fees := none, memo := "" }).supplyType
      = SupplyType.finite ∧
    (buildCreateRequest
      { symbol := "B", name := "B", max_supply := .vStr "100",
        type := "NON_FUNGIBLE_UNIQUE", custom_fees := none, memo := "" }).maxSupply
      = some 100 :=
  ⟨((C9_supply_type_and_empty_inventory.1 fooDescriptor).2 (by decide)).1,
    ((C9_supply_type_and_empty_inventory.1 _).1 100 (by decide) (by decide)).1,
    ((C9_supply_type_and_empty_inventory.1 _).1 100 (by decide) (by decide)).2⟩

/-! ## C6 -/

/-- The first ten decoded metadata entries, encoded, form the payload list
of the first mint transaction; hence the very first payload minted is the
head of the (reversed) metadata array. -/
theorem reverse_map_getElem? {A B : Type} (f : A → B) (l : List A) (i : Nat)
    (hi : i < l.length) :
    ((l.map f).reverse)[i]? = (l[l.length - 1 - i]?).map f := by
  rw [List.getElem?_reverse (by simpa using hi), List.length_map, List.getElem?_map]

theorem mintLoop_first_payload (s : List Int) (m : List (List Nat))
    (d : List Bool) (hs : s ≠ []) (hm : m ≠ []) :
    (mintsOf (mintLoop s m d)).flatten.head? = (m.head?).map utf8Encode := by
  obtain ⟨a, m', rfl⟩ : ∃ a m', m = a :: m' := by
    cases m with
    | nil => exact absurd rfl hm
    | cons a m' => exact ⟨a, m', rfl⟩
  rw [mintLoop]
  unfold mintLoopAux
  rw [if_pos (by simpa using List.length_pos.mpr hs)]
  rw [batchActions]
  simp [mintsOf, List.filterMap_append, List.filterMap_cons, batchSize]

/-- C6: when the fetched inventory is the newest-first sequence
`[r0, …, rN]`, the lockstep reversal of lines 151–153 produces `[rN, …, r0]`
in all three arrays — entry `i` after reversal is entry `length - 1 - i` of
the fetched sequence — and the first NFT minted on the target (the first
payload of the first mint batch) is the oldest source NFT `rN`. -/
theorem C6_reversal_restores_mint_order (recs : List SourceNft)
    (hne : recs ≠ []) :
    (∀ i, i < recs.length →
      (reverseAll (inventoryState recs)).serials[i]? =
        (recs[recs.length - 1 - i]?).map (fun n => n.serial_number) ∧
      (reverseAll (inventoryState recs)).metadata[i]? =
        (recs[recs.length - 1 - i]?).map decodedMetadata ∧
      (reverseAll (inventoryState recs)).deleteIds[i]? =
        (recs[recs.length - 1 - i]?).map (fun n => n.deleted)) ∧
    (mintsOf (mintLoop (reverseAll (inventoryState recs)).serials
        (reverseAll (inventoryState recs)).metadata
        (reverseAll (inventoryState recs)).deleteIds)).flatten.head? =
      some (utf8Encode (decodedMetadata (recs.getLast hne))) := by
  constructor
  · intro i hi
    refine ⟨?_, ?_, ?_⟩ <;>
      simpa [reverseAll, inventoryState] using
        reverse_map_getElem? _ recs i hi
  · rw [mintLoop_first_payload]
    · simp [reverseAll, inventoryState, List.head?_reverse, List.getLast?_map,
        List.getLast?_eq_getLast recs hne]
    · simp [reverseAll, inventoryState, hne]
    · simp [reverseAll, inventoryState, hne]

/-- Witness for C6 on a two-record inventory: after reversal the second
fetched record comes first and its payload is minted first. -/
theorem C6_witness :
    (reverseAll (inventoryState
        [{ serial_number := 2, metadata := "Qg==", deleted := false },
         { serial_number := 1, metadata := "QQ==", deleted := false }])).serials[0]? =
      some 1 ∧
    (mintsOf (mintLoop (reverseAll (inventoryState
        [{ serial_number := 2, metadata := "Qg==", deleted := false },
         { serial_number := 1, metadata := "QQ==", deleted := false }])).serials
      (reverseAll (inventoryState
        [{ serial_number := 2, metadata := "Qg==", deleted := false },
         { serial_number := 1, metadata := "QQ==", deleted := false }])).metadata
      (reverseAll (inventoryState
        [{ serial_number := 2, metadata := "Qg==", deleted := false },
         { serial_number := 1, metadata := "QQ==", deleted := false }])).deleteIds)).flatten.head? =
      some [65] := by
  have h := C6_reversal_restores_mint_order
    [{ serial_number := 2, metadata := "Qg==", deleted := false },
     { serial_number := 1, metadata := "QQ==", deleted := false }] (by simp)
  refine ⟨?_, ?_⟩
  · have h0 := (h.1 0 (by simp)).1
    simpa using h0
  · have h2 := h.2
    simpa using h2

/-! ## C8 -/

/-- C8: a token whose mirror lookup fails (transport error or not found,
`getTokenDetails` returning `null`) or whose `type` is not
`NON_FUNGIBLE_UNIQUE` causes no creation, mint or burn transaction, emits a
skip diagnostic, and the loop continues with the remaining tokens
unaffected. -/
theorem C8_skip_and_continue (mirror : String → Option TokenDetails)
    (inventory : String → List SourceNft) (newIds : String → String)
    (t : String) (rest : List String)
    (h : mirror t = none ∨
      ∃ td, mirror t = some td ∧ td.type ≠ "NON_FUNGIBLE_UNIQUE") :
    writesOf (processToken mirror inventory newIds t) = [] ∧
    createOf (processToken mirror inventory newIds t) = none ∧
    (skipDiagnostic t (processToken mirror inventory newIds t)).isSome ∧
    runTokens mirror inventory newIds (t :: rest) =
      (t, processToken mirror inventory newIds t) ::
        runTokens mirror inventory newIds rest := by
  rcases h with h | ⟨td, hsome, hty⟩
  · simp [processToken, h, writesOf, createOf, skipDiagnostic, runTokens]
  · simp [processToken, hsome, hty, writesOf, createOf, skipDiagnostic, runTokens]

/-- Witness for C8: one not-found token and one fungible token, each skipped. -/
theorem C8_witness :
    writesOf (processToken (fun _ => none) (fun _ => []) (fun _ => "0.0.222") "0.0.1") = [] ∧
    writesOf (processToken
      (fun _ => some { symbol := "F", name := "Fungible", max_supply := .vNull,
                       type := "FUNGIBLE_COMMON", custom_fees := none, memo := "" })
      (fun _ => []) (fun _ => "0.0.222") "0.0.1") = [] := by
  refine ⟨(C8_skip_and_continue (fun _ => none) (fun _ => []) (fun _ => "0.0.222")
      "0.0.1" [] (Or.inl rfl)).1,
    (C8_skip_and_continue _ (fun _ => []) (fun _ => "0.0.222") "0.0.1" []
      (Or.inr ⟨_, rfl, by simp⟩)).1⟩

end MigrateToken
